import Mathlib

/-!
Shallow embedding of `src/pykv/server.py` (the yakv key-value node).

Commands, keys, values and log contents are modelled as `List Char`
(Python `str`).  The in-memory store (a Python `dict`) is modelled as an
insertion-ordered association list.  Python exceptions are modelled with
an explicit error type: a function that can raise returns `Except PyErr _`,
or pairs its result with an `Option PyErr` when partial effects matter.
-/

namespace Pykv

/-- Python exceptions that the modelled code can raise. -/
inductive PyErr
  | valueError
  | assertionError
  | osError
  deriving DecidableEq, Repr

/-- Whitespace, as recognised by Python `str.split()` / `str.rstrip()`
(restricted to the whitespace characters that can occur in this system). -/
def isWs (c : Char) : Bool :=
  c == ' ' || c == '\t' || c == '\n' || c == '\r'

/-- Helper for `splitWs`: `acc` holds the current word, reversed. -/
def splitWsAux : List Char → List Char → List (List Char)
  | [], acc => if acc.isEmpty then [] else [acc.reverse]
  | c :: rest, acc =>
    if isWs c then
      if acc.isEmpty then splitWsAux rest []
      else acc.reverse :: splitWsAux rest []
    else splitWsAux rest (c :: acc)

/-- Python `str.split()` with no argument: split on runs of whitespace,
dropping empty tokens. -/
def splitWs (l : List Char) : List (List Char) := splitWsAux l []

/-- Python `str.split(" ")`: split on each single space, keeping empty
tokens. -/
def splitSp : List Char → List (List Char)
  | [] => [[]]
  | c :: rest =>
    if c = ' ' then [] :: splitSp rest
    else
      match splitSp rest with
      | t :: ts => (c :: t) :: ts
      | [] => [[c]]

/-- Python `str.rstrip()`: drop trailing whitespace. -/
def rstrip (l : List Char) : List Char :=
  (l.reverse.dropWhile isWs).reverse

/-- A Python `dict` with `str` keys and values: an insertion-ordered
association list whose keys are unique. -/
abbrev Dict := List (List Char × List Char)

/-- `key in d` for a Python dict. -/
def dmem (d : Dict) (k : List Char) : Bool :=
  d.any (fun p => p.1 == k)

/-- `d[k] = v` for a Python dict: overwrite in place if the key is
present (keeping its position), otherwise append at the end. -/
def dinsert (d : Dict) (k v : List Char) : Dict :=
  if dmem d k then d.map (fun p => if p.1 == k then (k, v) else p)
  else d ++ [(k, v)]

/-- `d.get(k)` for a Python dict. -/
def dget (d : Dict) (k : List Char) : Option (List Char) :=
  (d.find? (fun p => p.1 == k)).map Prod.snd

/-- `dict(pairs)`: build a dict from pairs, later duplicates winning. -/
def dfromList (ps : List (List Char × List Char)) : Dict :=
  ps.foldl (fun d p => dinsert d p.1 p.2) []

/-- `d.update(other)`: insert every item of `other` into `d`, in order. -/
def dupdate (d : Dict) (other : List (List Char × List Char)) : Dict :=
  other.foldl (fun acc p => dinsert acc p.1 p.2) d

/-- The value of the last pair in `ps` whose key is `k`, if any. -/
def lastVal : List (List Char × List Char) → List Char → Option (List Char)
  | [], _ => none
  | p :: ps, k =>
    match lastVal ps k with
    | some v => some v
    | none => if p.1 = k then some p.2 else none

/-- A well-formed key or value token: nonempty and whitespace-free, so
that it round-trips through the textual command formats. -/
abbrev wfTok (l : List Char) : Prop :=
  l ≠ [] ∧ ∀ c ∈ l, isWs c = false

/-- The f-string `f"set \x7bk\x7d \x7bv\x7d"` used both by the bootstrap
response path and as the shape of a stored `set` command. -/
def renderSet (k v : List Char) : List Char :=
  "set ".data ++ k ++ ' ' :: v

/-- A response sent back to a client by `handle_client`. -/
inductive Resp
  | okR                          -- send_str(client_sock, "OK")
  | valR (v : Option (List Char)) -- send_str(client_sock, kv.get(key)); None when absent
  | badR (s : List Char)         -- the fixed rejection marker
  deriving DecidableEq, Repr

/-- One observable effect inside a `handle_client` iteration, in source
order.  The trace records the order in which the Python statements run. -/
inductive Ev
  | storeInsert (k v : List Char) -- kv[key] = val
  | sendOK                        -- send_str(client_sock, "OK")
  | logWrite (s : List Char)      -- kv_log.write(s)
  | logFlush                      -- kv_log.flush()
  | enqueue (s : List Char)       -- replication_log.put(data)
  | sendVal (v : Option (List Char))
  | sendBad (s : List Char)
  deriving DecidableEq, Repr

/-- The node state shared by `handle_client`: the store `kv`, the
sequence of strings written to the `kv.log` file handle, and the
contents of the `replication_log` queue. -/
structure CState where
  kv : Dict
  logWrites : List (List Char)
  queue : List (List Char)
  deriving DecidableEq, Repr

/-- One iteration of `handle_client` in `src/pykv/server.py` on a decoded
command `data`.  `data.split(" ")` unpacked into a fixed tuple raises
`ValueError` when the token count does not match; that exception is not
caught, so `.error` means the per-connection handler thread dies. -/
def handle_client_cmd (st : CState) (data : List Char) :
    Except PyErr (CState × Resp × List Ev) :=
  if List.isPrefixOf "set ".data data then
    match splitSp data with
    | [_, key, v] =>
      .ok (⟨dinsert st.kv key v,
            st.logWrites ++ [data, "\n".data],
            st.queue ++ [data]⟩,
           Resp.okR,
           [Ev.storeInsert key v, Ev.sendOK, Ev.logWrite data,
            Ev.logWrite "\n".data, Ev.logFlush, Ev.enqueue data])
    | _ => .error PyErr.valueError
  else if List.isPrefixOf "get ".data data then
    match splitSp data with
    | [_, key] =>
      .ok (st, Resp.valR (dget st.kv key), [Ev.sendVal (dget st.kv key)])
    | _ => .error PyErr.valueError
  else
    .ok (st, Resp.badR "💩".data, [Ev.sendBad "💩".data])

/-- `Bool`: in trace `tr`, the (first) occurrence of `a` comes strictly
before the (first) occurrence of `b`. -/
def evBefore (tr : List Ev) (a b : Ev) : Bool :=
  match tr.findIdx? (· == a), tr.findIdx? (· == b) with
  | some i, some j => decide (i < j)
  | _, _ => false

/-- A peer address as produced by iterating the gossip node:
`(ip, gossip_port)` from `NodeParams`. -/
abbrev Peer := List Char × Nat

/-- The inner `for p in peers` loop of `replication_broadcast_loop`:
`one_off_socket(p)` then `send_str(sock, data)`, with no `try`/`except`.
`connectOk p = false` models a connect or send failure at peer `p`.
Returns the peers actually delivered to and the exception, if one
propagated (ending the loop). -/
def broadcast_entry (connectOk : Peer → Bool) : List Peer → List Peer × Option PyErr
  | [] => ([], none)
  | p :: rest =>
    if connectOk p then
      match broadcast_entry connectOk rest with
      | (delivered, e) => (p :: delivered, e)
    else ([], some PyErr.osError)

/-- `replication_broadcast_loop`, run over the entries sitting in the
queue: each entry is broadcast to the peer-set snapshot; an uncaught
exception terminates the whole loop (the broadcaster thread dies).
Returns, per processed entry, the peers it was delivered to. -/
def replication_broadcast_loop (connectOk : Peer → Bool) (peers : List Peer) :
    List (List Char) → List (List Char × List Peer) × Option PyErr
  | [] => ([], none)
  | e :: es =>
    match broadcast_entry connectOk peers with
    | (delivered, none) =>
      match replication_broadcast_loop connectOk peers es with
      | (processed, err) => ((e, delivered) :: processed, err)
    | (delivered, some err) => ([(e, delivered)], some err)

/-- `is_bootstrap` in `src/pykv/server.py`:
`cmd.lower().startswith("bootstrap")`. -/
def is_bootstrap (cmd : List Char) : Bool :=
  List.isPrefixOf "bootstrap".data (cmd.map Char.toLower)

/-- What the replication listener sends back on one connection. -/
inductive RSent
  | count (n : Nat)       -- send_uint32(peer_sock, len(kv))
  | line (s : List Char)  -- send_str(peer_sock, ...)
  deriving DecidableEq, Repr

/-- One connection handled by `replication_listen_loop` in
`src/pykv/server.py`, after the command string `cmd` has been read.
Returns the updated store, the strings written to `kv_log`, and the
framed messages sent back; `.error` means an uncaught exception
(`assert len(chunks) == 3`) killed the listener thread. -/
def replication_handle (kv : Dict) (cmd : List Char) :
    Except PyErr (Dict × List (List Char) × List RSent) :=
  if is_bootstrap cmd then
    .ok (kv,
         (kv.map (fun _ => [cmd, "\n".data])).flatten,
         RSent.count kv.length ::
           kv.map (fun p => RSent.line (renderSet p.1 p.2)))
  else if List.isPrefixOf "set ".data cmd then
    match splitSp cmd with
    | [_, key, v] => .ok (dinsert kv key v, [], [])
    | _ => .error PyErr.assertionError
  else
    .ok (kv, [], [])

/-- `read_kv` in `src/pykv/server.py`: read one framed string and unpack
`_, k, v = cmd.split()`; a token count other than 3 raises `ValueError`. -/
def read_kv (cmd : List Char) : Except PyErr (List Char × List Char) :=
  match splitWs cmd with
  | [_, k, v] => .ok (k, v)
  | _ => .error PyErr.valueError

/-- `bootstrap_kv` in `src/pykv/server.py`, with the transport elided:
`msgs` is the list of `n` framed strings received from the seed;
`dict(read_kv(sock) for _ in range(n))`. -/
def bootstrap_kv (msgs : List (List Char)) : Except PyErr Dict := do
  let pairs ← msgs.mapM read_kv
  return dfromList pairs

/-- The outcome of `open("kv.log")` at startup. -/
inductive FileOutcome
  | missing                          -- FileNotFoundError
  | readErr (e : PyErr)              -- any other I/O exception
  | content (lines : List (List Char)) -- the file's lines, '\n' included

/-- The replay loop body of `restore_from_file`:
`_, k, v = line.rstrip().split(); kv[k] = v`.  The `try` block catches
only `FileNotFoundError`, so a `ValueError` from a malformed line
propagates out of startup. -/
def restoreLines (kv : Dict) : List (List Char) → Except PyErr Dict
  | [] => .ok kv
  | line :: rest =>
    match splitWs (rstrip line) with
    | [_, k, v] => restoreLines (dinsert kv k v) rest
    | _ => .error PyErr.valueError

/-- `restore_from_file` in `src/pykv/server.py`. -/
def restore_from_file : FileOutcome → Except PyErr Dict
  | FileOutcome.missing => .ok []
  | FileOutcome.readErr e => .error e
  | FileOutcome.content lines => restoreLines [] lines

/-- The store `main` holds after recovery and (when a seed port is
configured) the bootstrap merge:
`kv = restore_from_file(); if seed_port: kv.update(bootstrap_kv(seed_port))`.
`served` is `none` when no seed is configured, otherwise the framed
strings the seed sent. -/
def main_startup_store (localKv : Dict) (served : Option (List (List Char))) :
    Except PyErr Dict :=
  match served with
  | none => .ok localKv
  | some msgs => (bootstrap_kv msgs).map (fun b => dupdate localKv b)

/-- The top-level startup actions of `main` in `src/pykv/server.py`, in
source order. -/
inductive MainStep
  | restoreStep        -- kv = restore_from_file()
  | bootstrapMerge     -- kv.update(bootstrap_kv(seed_port))
  | openLog            -- kv_log = open("kv.log", "a")
  | gossipSeed         -- gossip_node.seed(seed_port)
  | gossipStart        -- gossip_node.start()
  | startReplListener  -- Thread(target=replication_listen_loop, ...).start()
  | startReplBroadcaster
  | bindClientSock     -- sock.bind(("127.0.0.1", port)); sock.listen(5)
  | acceptClients      -- the accept loop
  deriving DecidableEq, Repr

/-- The sequence of startup actions `main` performs, for a node with or
without a configured seed port. -/
def main_steps (seeded : Bool) : List MainStep :=
  [MainStep.restoreStep]
    ++ (if seeded then [MainStep.bootstrapMerge] else [])
    ++ [MainStep.openLog]
    ++ (if seeded then [MainStep.gossipSeed] else [])
    ++ [MainStep.gossipStart, MainStep.startReplListener,
        MainStep.startReplBroadcaster, MainStep.bindClientSock,
        MainStep.acceptClients]

/-! ### Association-list dict lemmas -/

theorem dget_nil (k : List Char) : dget [] k = none := rfl

theorem dget_cons (p : List Char × List Char) (d : Dict) (k : List Char) :
    dget (p :: d) k = if p.1 = k then some p.2 else dget d k := by
  by_cases h : p.1 = k
  · simp [dget, h]
  · simp [dget, h]

theorem dmem_false_dget (d : Dict) (k : List Char) (h : dmem d k = false) :
    dget d k = none := by
  induction d with
  | nil => rfl
  | cons p d ih =>
    simp only [dmem, List.any_cons, Bool.or_eq_false_iff, beq_eq_false_iff_ne] at h
    rw [dget_cons, if_neg h.1, ih]
    exact (by simpa [dmem] using h.2)

theorem dget_map_overwrite (d : Dict) (k v k' : List Char) (h : k ≠ k') :
    dget (d.map (fun p => if p.1 == k then (k, v) else p)) k' = dget d k' := by
  induction d with
  | nil => rfl
  | cons p d ih =>
    simp only [beq_iff_eq] at ih
    by_cases hp : p.1 = k
    · simp [dget_cons, hp, h, ih]
    · simp [dget_cons, hp, ih]

theorem dget_map_overwrite_self (d : Dict) (k v : List Char)
    (h : dmem d k = true) :
    dget (d.map (fun p => if p.1 == k then (k, v) else p)) k = some v := by
  induction d with
  | nil => simp [dmem] at h
  | cons p d ih =>
    simp only [beq_iff_eq] at ih
    by_cases hp : p.1 = k
    · simp [dget_cons, hp]
    · simp only [List.map_cons]
      have hd : dmem d k = true := by simpa [dmem, hp] using h
      simp [dget_cons, hp, ih hd]

theorem dget_append (d₁ d₂ : Dict) (k : List Char) :
    dget (d₁ ++ d₂) k = (dget d₁ k).or (dget d₂ k) := by
  simp only [dget, List.find?_append]
  cases d₁.find? (fun p => p.1 == k) <;> simp

theorem dget_dinsert (d : Dict) (k v k' : List Char) :
    dget (dinsert d k v) k' = if k = k' then some v else dget d k' := by
  unfold dinsert
  by_cases hm : dmem d k
  · rw [if_pos hm]
    by_cases hk : k = k'
    · subst hk; rw [if_pos rfl, dget_map_overwrite_self d k v hm]
    · rw [if_neg hk, dget_map_overwrite d k v k' hk]
  · rw [if_neg hm]
    rw [dget_append, dget_cons]
    by_cases hk : k = k'
    · subst hk
      rw [dmem_false_dget d k (by simpa using hm), if_pos rfl]
      simp
    · rw [if_neg hk, if_neg hk]
      cases dget d k' <;> simp [dget]

theorem dget_foldl_dinsert (es : List (List Char × List Char)) :
    ∀ (d : Dict) (k : List Char),
      dget (es.foldl (fun acc p => dinsert acc p.1 p.2) d) k =
        match lastVal es k with
        | some v => some v
        | none => dget d k := by
  induction es with
  | nil => intro d k; simp [lastVal]
  | cons p es ih =>
    intro d k
    simp only [List.foldl_cons]
    rw [ih, lastVal]
    cases hlv : lastVal es k with
    | some v => simp
    | none =>
      simp only
      rw [dget_dinsert]
      by_cases hp : p.1 = k <;> simp [hp]

theorem lastVal_eq_none (ps : List (List Char × List Char)) (k : List Char)
    (h : k ∉ ps.map Prod.fst) : lastVal ps k = none := by
  induction ps with
  | nil => rfl
  | cons p ps ih =>
    simp only [List.map_cons, List.mem_cons, not_or] at h
    rw [lastVal, ih h.2]
    exact if_neg (Ne.symm h.1)

theorem lastVal_of_mem (ps : List (List Char × List Char))
    (hnd : (ps.map Prod.fst).Nodup) :
    ∀ p ∈ ps, lastVal ps p.1 = some p.2 := by
  induction ps with
  | nil => intro p hp; cases hp
  | cons q ps ih =>
    simp only [List.map_cons, List.nodup_cons] at hnd
    intro p hp
    rcases List.mem_cons.mp hp with hq | hmem
    · subst hq
      rw [lastVal, lastVal_eq_none ps p.1 hnd.1, if_pos rfl]
    · rw [lastVal, ih hnd.2 p hmem]

theorem foldl_dinsert_eq_append (ps : List (List Char × List Char)) :
    ∀ d : Dict, (∀ p ∈ ps, dmem d p.1 = false) →
      (ps.map Prod.fst).Nodup →
      ps.foldl (fun acc p => dinsert acc p.1 p.2) d = d ++ ps := by
  induction ps with
  | nil => intro d _ _; simp
  | cons p ps ih =>
    intro d hdis hnd
    simp only [List.map_cons, List.nodup_cons] at hnd
    have hins : dinsert d p.1 p.2 = d ++ [(p.1, p.2)] := by
      rw [dinsert, if_neg (by simp [hdis p (List.mem_cons_self p ps)])]
    simp only [List.foldl_cons, hins]
    rw [ih (d ++ [(p.1, p.2)])]
    · simp
    · intro q hq
      simp only [dmem, List.any_append, Bool.or_eq_false_iff]
      constructor
      · simpa [dmem] using hdis q (List.mem_cons_of_mem p hq)
      · simp only [List.any_cons, List.any_nil, Bool.or_false,
          beq_eq_false_iff_ne]
        intro hpq
        exact hnd.1 (hpq ▸ List.mem_map_of_mem Prod.fst hq)
    · exact hnd.2

theorem dfromList_eq_self (ps : List (List Char × List Char))
    (hnd : (ps.map Prod.fst).Nodup) : dfromList ps = ps := by
  rw [dfromList, foldl_dinsert_eq_append ps [] (fun p _ => rfl) hnd]
  rfl

/-! ### Splitting and stripping lemmas -/

theorem splitSp_word (w : List Char) (hw : ' ' ∉ w) : splitSp w = [w] := by
  induction w with
  | nil => rfl
  | cons c w ih =>
    have hc : ¬c = ' ' := fun h => hw (h ▸ List.mem_cons_self c w)
    have hw' : ' ' ∉ w := fun h => hw (List.mem_cons_of_mem c h)
    simp [splitSp, hc, ih hw']

theorem splitSp_word_space (w rest : List Char) (hw : ' ' ∉ w) :
    splitSp (w ++ ' ' :: rest) = w :: splitSp rest := by
  induction w with
  | nil => simp [splitSp]
  | cons c w ih =>
    have hc : ¬c = ' ' := fun h => hw (h ▸ List.mem_cons_self c w)
    have hw' : ' ' ∉ w := fun h => hw (List.mem_cons_of_mem c h)
    simp [splitSp, hc, ih hw']

theorem splitSp_renderSet (k v : List Char) (hk : ' ' ∉ k) (hv : ' ' ∉ v) :
    splitSp (renderSet k v) = ["set".data, k, v] := by
  show splitSp ("set".data ++ ' ' :: (k ++ ' ' :: v)) = _
  rw [splitSp_word_space "set".data (k ++ ' ' :: v) (by decide),
    splitSp_word_space k v hk, splitSp_word v hv]

theorem splitSp_getCmd (k : List Char) (hk : ' ' ∉ k) :
    splitSp ("get ".data ++ k) = ["get".data, k] := by
  show splitSp ("get".data ++ ' ' :: k) = _
  rw [splitSp_word_space "get".data k (by decide), splitSp_word k hk]

theorem splitWsAux_append_word (w : List Char)
    (hw : ∀ c ∈ w, isWs c = false) :
    ∀ (l acc : List Char), splitWsAux (w ++ l) acc = splitWsAux l (w.reverse ++ acc) := by
  induction w with
  | nil => intro l acc; simp
  | cons c w ih =>
    intro l acc
    have hc : isWs c = false := hw c (List.mem_cons_self c w)
    have hw' : ∀ d ∈ w, isWs d = false :=
      fun d hd => hw d (List.mem_cons_of_mem c hd)
    simp only [List.cons_append, splitWsAux, hc, Bool.false_eq_true,
      if_false, List.reverse_cons, List.append_assoc,
      List.singleton_append, List.nil_append]
    exact ih hw' l (c :: acc)

theorem splitWsAux_space (l acc : List Char) (h : acc ≠ []) :
    splitWsAux (' ' :: l) acc = acc.reverse :: splitWsAux l [] := by
  cases acc with
  | nil => exact absurd rfl h
  | cons a as => simp [splitWsAux, isWs]

theorem splitWsAux_word_only (w : List Char) (hw : ∀ c ∈ w, isWs c = false)
    (hne : w ≠ []) : splitWsAux w [] = [w] := by
  have h := splitWsAux_append_word w hw [] []
  rw [List.append_nil] at h
  rw [h]
  have hie : (w.reverse ++ []).isEmpty = false := by
    simpa [List.isEmpty_iff] using hne
  rw [List.append_nil] at hie
  simp only [splitWsAux, List.append_nil, List.reverse_reverse, hie,
    Bool.false_eq_true, if_false]

theorem splitWs_renderSet (k v : List Char) (hk : wfTok k) (hv : wfTok v) :
    splitWs (renderSet k v) = ["set".data, k, v] := by
  obtain ⟨hk0, hkw⟩ := hk
  obtain ⟨hv0, hvw⟩ := hv
  show splitWsAux ("set".data ++ (' ' :: (k ++ ' ' :: v))) [] = _
  rw [splitWsAux_append_word "set".data (by decide) (' ' :: (k ++ ' ' :: v)) [],
    splitWsAux_space _ _ (by decide),
    splitWsAux_append_word k hkw (' ' :: v) [],
    splitWsAux_space _ _ (by simpa using hk0),
    splitWsAux_word_only v hvw hv0]
  simp

theorem rstrip_append_ws (x : List Char) (c : Char) (hc : isWs c = true) :
    rstrip (x ++ [c]) = rstrip x := by
  simp [rstrip, List.dropWhile_cons, hc]

theorem rstrip_eq_self_of_rev (x : List Char) (c : Char) (t : List Char)
    (hrev : x.reverse = c :: t) (hc : isWs c = false) : rstrip x = x := by
  rw [rstrip, hrev, List.dropWhile_cons, if_neg (by simp [hc]), ← hrev,
    List.reverse_reverse]

theorem rstrip_renderSet_newline (k v : List Char) (hv : wfTok v) :
    rstrip (renderSet k v ++ ['\n']) = renderSet k v := by
  obtain ⟨hv0, hvw⟩ := hv
  rw [rstrip_append_ws _ '\n' (by decide)]
  cases hvr : v.reverse with
  | nil => exact absurd (by simpa using hvr) hv0
  | cons c t =>
    have hcv : c ∈ v := by
      rw [← List.mem_reverse, hvr]; exact List.mem_cons_self c t
    have hsplit : renderSet k v = ("set ".data ++ k ++ [' ']) ++ v := by
      simp [renderSet]
    have hrev2 : (renderSet k v).reverse = c :: (t ++ ("set ".data ++ k ++ [' ']).reverse) := by
      rw [hsplit, List.reverse_append, hvr]; rfl
    exact rstrip_eq_self_of_rev _ c _ hrev2 (hvw c hcv)

/-! ### Behaviour of the modelled functions -/

theorem handle_set_eq (st : CState) (k v : List Char)
    (hk : ' ' ∉ k) (hv : ' ' ∉ v) :
    handle_client_cmd st (renderSet k v) =
      .ok (⟨dinsert st.kv k v,
            st.logWrites ++ [renderSet k v, "\n".data],
            st.queue ++ [renderSet k v]⟩,
           Resp.okR,
           [Ev.storeInsert k v, Ev.sendOK, Ev.logWrite (renderSet k v),
            Ev.logWrite "\n".data, Ev.logFlush, Ev.enqueue (renderSet k v)]) := by
  have hpre : List.isPrefixOf "set ".data (renderSet k v) = true := by
    show List.isPrefixOf "set ".data ("set ".data ++ (k ++ ' ' :: v)) = true
    simp
  simp only [handle_client_cmd, hpre, if_true, splitSp_renderSet k v hk hv]

theorem handle_get_eq (st : CState) (k : List Char) (hk : ' ' ∉ k) :
    handle_client_cmd st ("get ".data ++ k) =
      .ok (st, Resp.valR (dget st.kv k), [Ev.sendVal (dget st.kv k)]) := by
  have hnset : List.isPrefixOf "set ".data ("get ".data ++ k) = false := rfl
  have hget : List.isPrefixOf "get ".data ("get ".data ++ k) = true := by simp
  simp only [handle_client_cmd, hnset, Bool.false_eq_true, if_false, hget,
    if_true, splitSp_getCmd k hk]

theorem handle_other_eq (st : CState) (data : List Char)
    (hs : List.isPrefixOf "set ".data data = false)
    (hg : List.isPrefixOf "get ".data data = false) :
    handle_client_cmd st data =
      .ok (st, Resp.badR "💩".data, [Ev.sendBad "💩".data]) := by
  simp only [handle_client_cmd, hs, hg, Bool.false_eq_true, if_false]

theorem handle_set_malformed (st : CState) (data : List Char)
    (hs : List.isPrefixOf "set ".data data = true)
    (hn : (splitSp data).length ≠ 3) :
    handle_client_cmd st data = .error PyErr.valueError := by
  simp only [handle_client_cmd, hs, if_true]
  rcases hsp : splitSp data with _ | ⟨a, _ | ⟨b, _ | ⟨c, _ | ⟨d, es⟩⟩⟩⟩ <;>
    first
      | rfl
      | exact absurd (by rw [hsp]; rfl) hn

theorem handle_get_malformed (st : CState) (data : List Char)
    (hs : List.isPrefixOf "set ".data data = false)
    (hg : List.isPrefixOf "get ".data data = true)
    (hn : (splitSp data).length ≠ 2) :
    handle_client_cmd st data = .error PyErr.valueError := by
  simp only [handle_client_cmd, hs, Bool.false_eq_true, if_false, hg, if_true]
  rcases hsp : splitSp data with _ | ⟨a, _ | ⟨b, _ | ⟨c, es⟩⟩⟩ <;>
    first
      | rfl
      | exact absurd (by rw [hsp]; rfl) hn

theorem replication_ignore_eq (kv : Dict) (cmd : List Char)
    (hb : is_bootstrap cmd = false)
    (hs : List.isPrefixOf "set ".data cmd = false) :
    replication_handle kv cmd = .ok (kv, [], []) := by
  simp only [replication_handle, hb, hs, Bool.false_eq_true, if_false]

theorem replication_set_malformed (kv : Dict) (cmd : List Char)
    (hb : is_bootstrap cmd = false)
    (hs : List.isPrefixOf "set ".data cmd = true)
    (hn : (splitSp cmd).length ≠ 3) :
    replication_handle kv cmd = .error PyErr.assertionError := by
  simp only [replication_handle, hb, Bool.false_eq_true, if_false, hs, if_true]
  rcases hsp : splitSp cmd with _ | ⟨a, _ | ⟨b, _ | ⟨c, _ | ⟨d, es⟩⟩⟩⟩ <;>
    first
      | rfl
      | exact absurd (by rw [hsp]; rfl) hn

theorem restoreLines_render (entries : List (List Char × List Char)) :
    ∀ d : Dict, (∀ p ∈ entries, wfTok p.1 ∧ wfTok p.2) →
      restoreLines d (entries.map (fun p => renderSet p.1 p.2 ++ ['\n'])) =
        .ok (entries.foldl (fun acc p => dinsert acc p.1 p.2) d) := by
  induction entries with
  | nil => intro d _; rfl
  | cons p ps ih =>
    intro d h
    have hp := h p (List.mem_cons_self p ps)
    have hps : ∀ q ∈ ps, wfTok q.1 ∧ wfTok q.2 :=
      fun q hq => h q (List.mem_cons_of_mem p hq)
    simp only [List.map_cons, restoreLines,
      rstrip_renderSet_newline p.1 p.2 hp.2,
      splitWs_renderSet p.1 p.2 hp.1 hp.2, List.foldl_cons]
    exact ih (dinsert d p.1 p.2) hps

theorem read_kv_render (k v : List Char) (hk : wfTok k) (hv : wfTok v) :
    read_kv (renderSet k v) = .ok (k, v) := by
  simp only [read_kv, splitWs_renderSet k v hk hv]

theorem mapM_read_kv (pairs : List (List Char × List Char))
    (h : ∀ p ∈ pairs, wfTok p.1 ∧ wfTok p.2) :
    (pairs.map (fun p => renderSet p.1 p.2)).mapM read_kv = .ok pairs := by
  induction pairs with
  | nil => rfl
  | cons p ps ih =>
    have hp := h p (List.mem_cons_self p ps)
    have hps : ∀ q ∈ ps, wfTok q.1 ∧ wfTok q.2 :=
      fun q hq => h q (List.mem_cons_of_mem p hq)
    rw [List.map_cons, List.mapM_cons, read_kv_render p.1 p.2 hp.1 hp.2,
      ih hps]
    rfl

theorem bootstrap_kv_render (pairs : List (List Char × List Char))
    (h : ∀ p ∈ pairs, wfTok p.1 ∧ wfTok p.2)
    (hnd : (pairs.map Prod.fst).Nodup) :
    bootstrap_kv (pairs.map (fun p => renderSet p.1 p.2)) = .ok pairs := by
  rw [bootstrap_kv, mapM_read_kv pairs h]
  show Except.ok (dfromList pairs) = _
  rw [dfromList_eq_self pairs hnd]

theorem broadcast_entry_fail (connectOk : Peer → Bool) (pre : List Peer)
    (hpre : ∀ q ∈ pre, connectOk q = true) (p : Peer)
    (hp : connectOk p = false) (post : List Peer) :
    broadcast_entry connectOk (pre ++ p :: post) = (pre, some PyErr.osError) := by
  induction pre with
  | nil => simp [broadcast_entry, hp]
  | cons q pre ih =>
    have hq : connectOk q = true := hpre q (List.mem_cons_self q pre)
    have hpre' : ∀ r ∈ pre, connectOk r = true :=
      fun r hr => hpre r (List.mem_cons_of_mem q hr)
    simp [broadcast_entry, hq, ih hpre']

/-! ### Claim theorems -/

/-- C1: the claim says the only lines the listener appends to the durable
log while serving a bootstrap request are the snapshot entries in the
format "set key value\n".  In the code the loop writes `cmd` — the
received command text "bootstrap" — once per store entry, not the entry
line `v_` that it sends; such a line is not in set-format and replaying
it raises ValueError.  The propagated-write path indeed appends nothing.
Evaluated at store `a ↦ 1` with command "bootstrap" and at a propagated
write "set x y". -/
theorem c1_bootstrap_logs_request_text :
    replication_handle [(['a'], ['1'])] "bootstrap".data =
      .ok ([(['a'], ['1'])], ["bootstrap".data, "\n".data],
           [RSent.count 1, RSent.line "set a 1".data])
    ∧ "bootstrap".data ≠ renderSet ['a'] ['1']
    ∧ restore_from_file (FileOutcome.content ["bootstrap\n".data]) =
        .error PyErr.valueError
    ∧ replication_handle [] "set x y".data = .ok ([(['x'], ['y'])], [], []) :=
  ⟨rfl, by decide, rfl, rfl⟩

/-- C2 counterexample: for the accepted command "set a 1" from the empty
state, the event trace of `handle_client` is store-insert, send "OK",
log write, log write, flush, enqueue — so the log flush does NOT precede
the OK acknowledgment, refuting the claim as stated. -/
theorem c2_ok_before_flush_cex :
    handle_client_cmd ⟨[], [], []⟩ "set a 1".data =
      .ok (⟨[(['a'], ['1'])], ["set a 1".data, "\n".data], ["set a 1".data]⟩,
           Resp.okR,
           [Ev.storeInsert ['a'] ['1'], Ev.sendOK,
            Ev.logWrite "set a 1".data, Ev.logWrite "\n".data,
            Ev.logFlush, Ev.enqueue "set a 1".data])
    ∧ evBefore
        [Ev.storeInsert ['a'] ['1'], Ev.sendOK,
         Ev.logWrite "set a 1".data, Ev.logWrite "\n".data,
         Ev.logFlush, Ev.enqueue "set a 1".data]
        Ev.logFlush Ev.sendOK = false :=
  ⟨rfl, rfl⟩

/-- C2 (amended): for every accepted client `set key value` command the
entry is appended to the DurableLog and flushed within the same
command-handling iteration, but only after the `OK` acknowledgment has
been sent: the node acknowledges `OK` before the log append and flush
complete. -/
theorem c2_set_ack_before_flush (st : CState) (k v : List Char)
    (hk : ' ' ∉ k) (hv : ' ' ∉ v) :
    handle_client_cmd st (renderSet k v) =
      .ok (⟨dinsert st.kv k v,
            st.logWrites ++ [renderSet k v, "\n".data],
            st.queue ++ [renderSet k v]⟩,
           Resp.okR,
           [Ev.storeInsert k v, Ev.sendOK, Ev.logWrite (renderSet k v),
            Ev.logWrite "\n".data, Ev.logFlush, Ev.enqueue (renderSet k v)])
    ∧ evBefore
        [Ev.storeInsert k v, Ev.sendOK, Ev.logWrite (renderSet k v),
         Ev.logWrite "\n".data, Ev.logFlush, Ev.enqueue (renderSet k v)]
        Ev.sendOK Ev.logFlush = true := by
  refine ⟨handle_set_eq st k v hk hv, ?_⟩
  rfl

/-- C2 witness: the amended theorem applied at the empty state with
key `a`, value `1`. -/
theorem c2_set_ack_before_flush_witness :
    evBefore
      [Ev.storeInsert ['a'] ['1'], Ev.sendOK, Ev.logWrite (renderSet ['a'] ['1']),
       Ev.logWrite "\n".data, Ev.logFlush, Ev.enqueue (renderSet ['a'] ['1'])]
      Ev.sendOK Ev.logFlush = true :=
  (c2_set_ack_before_flush ⟨[], [], []⟩ ['a'] ['1'] (by decide) (by decide)).2

/-- C3 counterexample: with two peers where the connection to the first
(port 9001) fails and two queued entries, the broadcaster delivers the
first entry to no peer at all (the second peer is never attempted), the
uncaught exception terminates the loop, and the second entry is never
processed — refuting the claim as stated. -/
theorem c3_broadcast_fail_cex :
    replication_broadcast_loop (fun q => decide (q.2 = 9002))
        [("127.0.0.1".data, 9001), ("127.0.0.1".data, 9002)]
        ["set a 1".data, "set b 2".data]
      = ([("set a 1".data, [])], some PyErr.osError)
    ∧ (replication_broadcast_loop (fun q => decide (q.2 = 9002))
        [("127.0.0.1".data, 9001), ("127.0.0.1".data, 9002)]
        ["set a 1".data, "set b 2".data]).2 ≠ none :=
  ⟨rfl, by decide⟩

/-- C3 (amended): in the replication broadcaster loop a failed connect or
send to one peer raises an uncaught exception that terminates the
broadcaster loop: the entry is delivered only to the peers preceding the
failing peer in the snapshot, the remaining peers are not attempted, and
no further entry is processed. -/
theorem c3_broadcast_fail_aborts (connectOk : Peer → Bool) (pre : List Peer)
    (hpre : ∀ q ∈ pre, connectOk q = true) (p : Peer)
    (hp : connectOk p = false) (post : List Peer)
    (e : List Char) (es : List (List Char)) :
    replication_broadcast_loop connectOk (pre ++ p :: post) (e :: es) =
      ([(e, pre)], some PyErr.osError) := by
  simp [replication_broadcast_loop,
    broadcast_entry_fail connectOk pre hpre p hp post]

/-- C3 witness: the amended theorem applied to peers `[p1, p2]` where the
connection to `p1` fails, with two queued entries. -/
theorem c3_broadcast_fail_aborts_witness :
    replication_broadcast_loop (fun q => decide (q.2 = 9002))
        ([] ++ ("127.0.0.1".data, 9001) :: [("127.0.0.1".data, 9002)])
        ("set a 1".data :: ["set b 2".data]) =
      ([("set a 1".data, [])], some PyErr.osError) :=
  c3_broadcast_fail_aborts (fun q => decide (q.2 = 9002)) []
    (by intro q hq; cases hq) ("127.0.0.1".data, 9001) (by decide)
    [("127.0.0.1".data, 9002)] "set a 1".data ["set b 2".data]

/-- C4 counterexample: the inbound replication message "set a b c" is
neither a bootstrap request nor a well-formed set command, yet the
listener raises AssertionError (from `assert len(chunks) == 3`), which
terminates the listener loop — refuting the claim as stated. -/
theorem c4_malformed_set_asserts_cex :
    replication_handle [] "set a b c".data = .error PyErr.assertionError :=
  rfl

/-- C4 (amended): an inbound replication message that is neither a
bootstrap request nor prefixed "set " is ignored without mutating the
Store and without error; but a message prefixed "set " whose body does
not split into exactly three tokens fails the `assert len(chunks) == 3`
assertion, and the AssertionError terminates the listener loop. -/
theorem c4_listener_unknown_dispatch :
    (∀ (kv : Dict) (cmd : List Char), is_bootstrap cmd = false →
        List.isPrefixOf "set ".data cmd = false →
        replication_handle kv cmd = .ok (kv, [], []))
    ∧ (∀ (kv : Dict) (cmd : List Char), is_bootstrap cmd = false →
        List.isPrefixOf "set ".data cmd = true →
        (splitSp cmd).length ≠ 3 →
        replication_handle kv cmd = .error PyErr.assertionError) :=
  ⟨replication_ignore_eq, replication_set_malformed⟩

/-- C4 witness: the amended theorem applied to the unknown message
"wtf hello" and the malformed propagated write "set a b c". -/
theorem c4_listener_unknown_dispatch_witness :
    replication_handle [(['a'], ['1'])] "wtf hello".data =
      .ok ([(['a'], ['1'])], [], [])
    ∧ replication_handle [(['a'], ['1'])] "set a b c".data =
        .error PyErr.assertionError :=
  ⟨c4_listener_unknown_dispatch.1 [(['a'], ['1'])] "wtf hello".data
      (by decide) (by decide),
   c4_listener_unknown_dispatch.2 [(['a'], ['1'])] "set a b c".data
      (by decide) (by decide) (by decide)⟩

/-- C5 counterexample: the client command "set a" has the wrong token
count; `handle_client` raises ValueError from the tuple unpacking, a
fatal error for that connection's handler — refuting the claim as
stated. -/
theorem c5_malformed_set_raises_cex :
    handle_client_cmd ⟨[], [], []⟩ "set a".data = .error PyErr.valueError :=
  rfl

/-- C5 (amended): a client command that begins with "set " (resp.
"get ") but does not split on single spaces into exactly 3 (resp. 2)
tokens raises an uncaught ValueError that tears down that connection's
handler; only commands matching neither prefix are treated as unknown
input without a fatal error. -/
theorem c5_client_malformed_dispatch :
    (∀ (st : CState) (data : List Char),
        List.isPrefixOf "set ".data data = true →
        (splitSp data).length ≠ 3 →
        handle_client_cmd st data = .error PyErr.valueError)
    ∧ (∀ (st : CState) (data : List Char),
        List.isPrefixOf "set ".data data = false →
        List.isPrefixOf "get ".data data = true →
        (splitSp data).length ≠ 2 →
        handle_client_cmd st data = .error PyErr.valueError)
    ∧ (∀ (st : CState) (data : List Char),
        List.isPrefixOf "set ".data data = false →
        List.isPrefixOf "get ".data data = false →
        handle_client_cmd st data =
          .ok (st, Resp.badR "💩".data, [Ev.sendBad "💩".data])) :=
  ⟨handle_set_malformed, handle_get_malformed, handle_other_eq⟩

/-- C5 witness: the amended theorem applied to "set a", "get a b" and
"ping". -/
theorem c5_client_malformed_dispatch_witness :
    handle_client_cmd ⟨[], [], []⟩ "set a".data = .error PyErr.valueError
    ∧ handle_client_cmd ⟨[], [], []⟩ "get a b".data = .error PyErr.valueError
    ∧ handle_client_cmd ⟨[], [], []⟩ "ping".data =
        .ok (⟨[], [], []⟩, Resp.badR "💩".data, [Ev.sendBad "💩".data]) :=
  ⟨c5_client_malformed_dispatch.1 ⟨[], [], []⟩ "set a".data
      (by decide) (by decide),
   c5_client_malformed_dispatch.2.1 ⟨[], [], []⟩ "get a b".data
      (by decide) (by decide) (by decide),
   c5_client_malformed_dispatch.2.2 ⟨[], [], []⟩ "ping".data
      (by decide) (by decide)⟩

/-- C6: after `kv.update(bootstrap_kv(seed_port))` at a seeded node, every
key in the snapshot served by the seed maps to the seed's value
(overwriting any locally recovered entry), locally recovered keys absent
from the snapshot keep their local values, and in `main` the merge step
precedes the client accept loop. -/
theorem c6_bootstrap_merge (localKv : Dict)
    (pairs : List (List Char × List Char))
    (hwf : ∀ p ∈ pairs, wfTok p.1 ∧ wfTok p.2)
    (hnd : (pairs.map Prod.fst).Nodup) :
    main_startup_store localKv (some (pairs.map (fun p => renderSet p.1 p.2))) =
      .ok (dupdate localKv pairs)
    ∧ (∀ p ∈ pairs, dget (dupdate localKv pairs) p.1 = some p.2)
    ∧ (∀ k : List Char, k ∉ pairs.map Prod.fst →
        dget (dupdate localKv pairs) k = dget localKv k)
    ∧ (main_steps true).indexOf MainStep.bootstrapMerge <
        (main_steps true).indexOf MainStep.acceptClients := by
  refine ⟨?_, ?_, ?_, by decide⟩
  · simp only [main_startup_store, bootstrap_kv_render pairs hwf hnd,
      Except.map]
  · intro p hp
    rw [dupdate, dget_foldl_dinsert pairs localKv p.1,
      lastVal_of_mem pairs hnd p hp]
  · intro k hk
    rw [dupdate, dget_foldl_dinsert pairs localKv k,
      lastVal_eq_none pairs k hk]

/-- C6 witness: the theorem applied to local store `b ↦ 0` and seed
snapshot `[a ↦ 1, b ↦ 2]`: both snapshot keys take the seed's values and
a local key absent from the snapshot would be kept. -/
theorem c6_bootstrap_merge_witness :
    dget (dupdate [(['b'], ['0'])] [(['a'], ['1']), (['b'], ['2'])]) ['b'] =
      some ['2']
    ∧ dget (dupdate [(['b'], ['0'])] [(['a'], ['1']), (['b'], ['2'])]) ['c'] =
        dget [(['b'], ['0'])] ['c'] :=
  ⟨(c6_bootstrap_merge [(['b'], ['0'])] [(['a'], ['1']), (['b'], ['2'])]
      (by decide) (by decide)).2.1 (['b'], ['2']) (by decide),
   (c6_bootstrap_merge [(['b'], ['0'])] [(['a'], ['1']), (['b'], ['2'])]
      (by decide) (by decide)).2.2.1 ['c'] (by decide)⟩

/-- C7: replaying a durable-log file whose lines are
"set key value\n" reconstructs a store in which each key maps to the
value of the last line that sets it. -/
theorem c7_restore_last_line_wins (entries : List (List Char × List Char))
    (h : ∀ p ∈ entries, wfTok p.1 ∧ wfTok p.2) :
    restore_from_file (FileOutcome.content
        (entries.map (fun p => renderSet p.1 p.2 ++ ['\n']))) =
      .ok (dfromList entries)
    ∧ ∀ k : List Char, dget (dfromList entries) k = lastVal entries k := by
  constructor
  · show restoreLines [] _ = _
    rw [restoreLines_render entries [] h]
    rfl
  · intro k
    rw [dfromList, dget_foldl_dinsert entries [] k]
    cases lastVal entries k <;> rfl

/-- C7 witness: the theorem applied to the two-line file
"set a 1\n", "set a 2\n": replay succeeds and key `a` maps to the value
of the last line. -/
theorem c7_restore_last_line_wins_witness :
    restore_from_file (FileOutcome.content
        ([(['a'], ['1']), (['a'], ['2'])].map
          (fun p => renderSet p.1 p.2 ++ ['\n']))) =
      .ok (dfromList [(['a'], ['1']), (['a'], ['2'])])
    ∧ dget (dfromList [(['a'], ['1']), (['a'], ['2'])]) ['a'] =
        lastVal [(['a'], ['1']), (['a'], ['2'])] ['a'] :=
  ⟨(c7_restore_last_line_wins [(['a'], ['1']), (['a'], ['2'])] (by decide)).1,
   (c7_restore_last_line_wins [(['a'], ['1']), (['a'], ['2'])] (by decide)).2
      ['a']⟩

/-- C8: on a single node with no interleaving writers, a `set k v` that
is acknowledged OK followed by `get k` returns v. -/
theorem c8_read_after_write (st : CState) (k v : List Char)
    (hk : ' ' ∉ k) (hv : ' ' ∉ v) :
    handle_client_cmd st (renderSet k v) =
      .ok (⟨dinsert st.kv k v,
            st.logWrites ++ [renderSet k v, "\n".data],
            st.queue ++ [renderSet k v]⟩,
           Resp.okR,
           [Ev.storeInsert k v, Ev.sendOK, Ev.logWrite (renderSet k v),
            Ev.logWrite "\n".data, Ev.logFlush, Ev.enqueue (renderSet k v)])
    ∧ handle_client_cmd
        ⟨dinsert st.kv k v,
         st.logWrites ++ [renderSet k v, "\n".data],
         st.queue ++ [renderSet k v]⟩ ("get ".data ++ k) =
      .ok (⟨dinsert st.kv k v,
            st.logWrites ++ [renderSet k v, "\n".data],
            st.queue ++ [renderSet k v]⟩,
           Resp.valR (some v), [Ev.sendVal (some v)]) := by
  refine ⟨handle_set_eq st k v hk hv, ?_⟩
  rw [handle_get_eq ⟨dinsert st.kv k v,
      st.logWrites ++ [renderSet k v, "\n".data],
      st.queue ++ [renderSet k v]⟩ k hk]
  show Except.ok (_, Resp.valR (dget (dinsert st.kv k v) k),
    [Ev.sendVal (dget (dinsert st.kv k v) k)]) = _
  rw [dget_dinsert st.kv k v k, if_pos rfl]

/-- C8 witness: the theorem applied at the empty state with key `a`,
value `1`: the subsequent get returns `1`. -/
theorem c8_read_after_write_witness :
    handle_client_cmd
      ⟨dinsert [] ['a'] ['1'],
       [] ++ [renderSet ['a'] ['1'], "\n".data],
       [] ++ [renderSet ['a'] ['1']]⟩ ("get ".data ++ ['a']) =
    .ok (⟨dinsert [] ['a'] ['1'],
          [] ++ [renderSet ['a'] ['1'], "\n".data],
          [] ++ [renderSet ['a'] ['1']]⟩,
         Resp.valR (some ['1']), [Ev.sendVal (some ['1'])]) :=
  (c8_read_after_write ⟨[], [], []⟩ ['a'] ['1'] (by decide) (by decide)).2

/-- C9: a client input that begins with neither "set " nor "get " gets
the fixed error marker as response, and the store, the log writes and
the replication queue are left unchanged. -/
theorem c9_unknown_input_no_mutation (st : CState) (data : List Char)
    (hs : List.isPrefixOf "set ".data data = false)
    (hg : List.isPrefixOf "get ".data data = false) :
    handle_client_cmd st data =
      .ok (st, Resp.badR "💩".data, [Ev.sendBad "💩".data]) :=
  handle_other_eq st data hs hg

/-- C9 witness: the theorem applied to input "hello" at a nonempty
state. -/
theorem c9_unknown_input_no_mutation_witness :
    handle_client_cmd ⟨[(['a'], ['1'])], ["set a 1\n".data], []⟩ "hello".data =
      .ok (⟨[(['a'], ['1'])], ["set a 1\n".data], []⟩,
           Resp.badR "💩".data, [Ev.sendBad "💩".data]) :=
  c9_unknown_input_no_mutation ⟨[(['a'], ['1'])], ["set a 1\n".data], []⟩
    "hello".data (by decide) (by decide)

/-- C10: a missing durable-log file is silently tolerated and yields an
empty store; any other read error propagates out of recovery, and a
malformed first line makes replay raise ValueError rather than being
tolerated. -/
theorem c10_missing_log_tolerated :
    restore_from_file FileOutcome.missing = .ok []
    ∧ (∀ e : PyErr, restore_from_file (FileOutcome.readErr e) = .error e)
    ∧ (∀ (line : List Char) (rest : List (List Char)),
        (splitWs (rstrip line)).length ≠ 3 →
        restore_from_file (FileOutcome.content (line :: rest)) =
          .error PyErr.valueError) := by
  refine ⟨rfl, fun e => rfl, ?_⟩
  intro line rest hn
  show restoreLines [] (line :: rest) = _
  simp only [restoreLines]
  rcases hsp : splitWs (rstrip line) with _ | ⟨a, _ | ⟨b, _ | ⟨c, _ | ⟨d, es⟩⟩⟩⟩ <;>
    first
      | rfl
      | exact absurd (by rw [hsp]; rfl) hn

/-- C10 witness: the theorem applied to the propagated error
AssertionError and to a file whose first line is "bootstrap". -/
theorem c10_missing_log_tolerated_witness :
    restore_from_file (FileOutcome.readErr PyErr.osError) =
      .error PyErr.osError
    ∧ restore_from_file (FileOutcome.content ["bootstrap\n".data]) =
        .error PyErr.valueError :=
  ⟨c10_missing_log_tolerated.2.1 PyErr.osError,
   c10_missing_log_tolerated.2.2 "bootstrap\n".data [] (by decide)⟩

end Pykv
